import Mathlib

/-!
Verification of the navigation/selection engine of
`nestjs-prisma-dynamic-resolvers`.

The development shallowly embeds the TypeScript source:

* `src/dynamic-navigations.ts` — the navigation registry
  (`registerNavigation`, `getNavigationMaps`, `getNavigationMapsOf`,
  `removeNavigationMapsOf`);
* `src/helpers/extract-grapql-selections.ts` — GraphQL selection and path
  extraction (`extractGraphQLSelections`, `extractGraphQLSelectionPath`);
* `src/dynamic-resolvers.ts` — the monolithic resolver base
  (`getSelectionPath`, `resolve` issuing `findMany` / `findFirst`);
* `src/dynamic-resolver/make-dynamic-resolver.ts` — the generated field
  handler and its hook protocol;
* `src/dynamic-resolver/dynamic-resolver-ops.ts` — the resolver-parameter
  registry.

JavaScript objects are modelled as association lists with in-place update
semantics, JavaScript values as the inductive `JsVal`, class identities as
`TypeRef`, and the module-level mutable registries as explicit state passed
through the functions (`Option (List _)` keeps the allocated/deallocated
distinction of the `_navigations ??= []` / `_navigations = undefined`
pattern).
-/

namespace DynRes

/-- Identity of a JavaScript class (reference identity plus its `name`). -/
structure TypeRef where
  id : Nat
  name : String
deriving DecidableEq, Repr

/-- The relation string: one of 1:1, 1:*, *:1, *:*. -/
inductive RelationString where
  | oneOne
  | oneMany
  | manyOne
  | manyMany
deriving DecidableEq, Repr

/-- TS `relation.indexOf('*') >= 0` — true when any side of the relation is
starred (used by the monolithic resolver base). -/
def RelationString.hasStar : RelationString → Bool
  | .oneOne => false
  | _ => true

/-- Function `toCamelCase` from `src/helpers/to-camel-case.ts`: lower-cases the first
letter of the input (the regex replaces the first word's initial). -/
def toCamelCase (s : String) : String :=
  match s.data with
  | [] => ""
  | c :: rest => String.mk (Char.toLower c :: rest)

/-- Interface `INavigationMap` from `src/dynamic-navigations.ts`. -/
structure INavigationMap where
  source : TypeRef
  target : TypeRef
  sourceTableName : String
  reverseTableName : Option String := none
  sourceProperty : String
  targetTableName : String
  targetProperty : Option String := none
  relation : RelationString
deriving DecidableEq, Repr

/-- The `from` side of `INavigationDefinitonParams`
(`INavigationSourceTableInfo`). -/
structure NavSourceInfo where
  source : TypeRef
  tableName : Option String := none
  withProperty : String
  reverseTableName : Option String := none
deriving DecidableEq, Repr

/-- The `to` side of `INavigationDefinitonParams`
(`INavigationTargetTableInfo`). -/
structure NavTargetInfo where
  target : TypeRef
  tableName : Option String := none
  withProperty : Option String := none
deriving DecidableEq, Repr

/-- Interface `INavigationDefinitonParams` (the TS field `from` is a Lean keyword and
is embedded as `from_`). -/
structure INavigationDefinitonParams where
  from_ : NavSourceInfo
  to_ : NavTargetInfo
  relation : RelationString
deriving DecidableEq, Repr

/-- State of the module-level `_navigations` array: `none` when the backing
store is unallocated (`undefined`), `some l` when allocated. -/
abbrev NavState := Option (List INavigationMap)

/-- JavaScript string falsiness of an optional string property
(`undefined` and the empty string are falsy). -/
def falsyOptStr : Option String → Bool
  | none => true
  | some s => s.isEmpty

/-- Function `registerNavigation` from `src/dynamic-navigations.ts`.  Returns the
outcome (`.error` models the `throw`) together with the contents of the
backing store after the call; the store is allocated (`_navigations ??= []`)
before anything else happens, so even a throwing call leaves it allocated. -/
def registerNavigation (params : INavigationDefinitonParams) (navs : NavState) :
    Except String Unit × List INavigationMap :=
  let navigations := navs.getD []
  let sourceTableName := toCamelCase (params.from_.tableName.getD params.from_.source.name)
  let targetTableName := toCamelCase (params.to_.tableName.getD params.to_.target.name)
  let navigationMap : INavigationMap := {
    relation := params.relation
    sourceTableName := sourceTableName
    targetTableName := targetTableName
    target := params.to_.target
    source := params.from_.source
    targetProperty := params.to_.withProperty
    sourceProperty := params.from_.withProperty }
  if params.relation = .manyMany then
    let left : INavigationMap := { navigationMap with relation := .oneMany }
    if falsyOptStr left.targetProperty then
      (.error "[registerNavigation targetProperty] - Property is required when the relation is *:*",
        navigations)
    else
      let right : INavigationMap := {
        source := left.target
        target := left.source
        sourceProperty := left.targetProperty.getD ""
        targetProperty := some left.sourceProperty
        sourceTableName := left.targetTableName
        targetTableName := left.sourceTableName
        relation := .oneMany }
      (.ok (), navigations ++ [left, right])
  else
    (.ok (), navigations ++ [navigationMap])

/-- Function `getNavigationMaps`: the full registry (empty when unallocated). -/
def getNavigationMaps (navs : NavState) : List INavigationMap :=
  navs.getD []

/-- Function `getNavigationMapsOf`: all links whose `source` is the given type. -/
def getNavigationMapsOf (type' : TypeRef) (navs : NavState) : List INavigationMap :=
  (navs.getD []).filter (fun it => it.source == type')

/-- Function `removeNavigationMapsOf`: removes every link whose `source` is the given
type (the backward `splice` loop keeps the order of the survivors), returns
`false` only when the backing store was unallocated, and deallocates the
store when it ends up empty. -/
def removeNavigationMapsOf (type' : TypeRef) (navs : NavState) : Bool × NavState :=
  match navs with
  | none => (false, none)
  | some l =>
    let survivors := l.filter (fun it => !(it.source == type'))
    if survivors.isEmpty then (true, none) else (true, some survivors)

/-- A JavaScript runtime value, as far as the resolver engine inspects one. -/
inductive JsVal where
  | jsUndefined
  | null
  | bool (b : Bool)
  | num (n : Int)
  | str (s : String)
  | arr (items : List JsVal)
  | obj (fields : List (String × JsVal))

/-- A JavaScript object: an association list of own properties, in insertion
order. -/
abbrev JsObj := List (String × JsVal)

/-- JavaScript `typeof v === 'object'` — true for plain objects, arrays and `null`. -/
def typeofObject : JsVal → Bool
  | .null => true
  | .arr _ => true
  | .obj _ => true
  | _ => false

/-- JavaScript `key in o` — own-property membership. -/
def hasKey (o : JsObj) (key : String) : Bool :=
  o.any (fun kv => kv.1 == key)

/-- JavaScript `o[key]` — property read, `undefined` when the key is absent. -/
def getKey (o : JsObj) (key : String) : JsVal :=
  ((o.find? (fun kv => kv.1 == key)).map (fun kv => kv.2)).getD .jsUndefined

/-- JavaScript `o[key] = v` — JavaScript assignment: replaces the value in place when the
key exists (keeping its position), appends otherwise. -/
def setKey : JsObj → String → JsVal → JsObj
  | [], key, v => [(key, v)]
  | (k, w) :: rest, key, v =>
    if k == key then (k, v) :: rest else (k, w) :: setKey rest key v

/-- A value of the `selectionMap` dictionary: either a replacement string or
a mapper function `(parentKeys, fieldName) => string`. -/
inductive SelectionOutput where
  | str (s : String)
  | fn (f : List String → String → String)

/-- Type `IGraphQLExtractSelectionMap`: a dictionary from field names to
`SelectionOutput` values. -/
abbrev SelectionMap := List (String × SelectionOutput)

/-- Dictionary lookup in a selection map. -/
def lookupMapper (m : SelectionMap) (key : String) : Option SelectionOutput :=
  (m.find? (fun kv => kv.1 == key)).map (fun kv => kv.2)

/-- The mapper dispatch shared by `extractGraphQLSelections` and
`extractGraphQLSelectionPath`: a string mapper replaces the key, a function
mapper is applied to the accumulated parent keys and the key, and an absent
mapper keeps the key unchanged. -/
def applyMapper (m : SelectionMap) (parents : List String) (key : String) : String :=
  match lookupMapper m key with
  | some (.str s) => s
  | some (.fn f) => f parents key
  | none => key

/-- A key of the GraphQL resolve-path chain: a field name or an array index. -/
inductive PathKey where
  | str (s : String)
  | num (n : Nat)
deriving DecidableEq, Repr

/-- The resolve-path chain `{ key, prev }` of a `GraphQLResolveInfo`;
`nil` stands for an `undefined` `prev`. -/
inductive ResolvePath where
  | nil
  | node (key : PathKey) (prev : ResolvePath)
deriving DecidableEq, Repr

/-- Function `extractGraphQLSelectionPath` from
`src/helpers/extract-grapql-selections.ts` (identical in the older helper
snapshot): walks the chain from the leaf towards the root, skips numeric
keys, maps each string key through the selection map with the accumulated
result as parent keys, and prepends the mapped segment. -/
def extractGraphQLSelectionPath : ResolvePath → SelectionMap → List String → List String
  | .nil, _, rootPaths => rootPaths
  | .node (.num _) prev, selectionMap, rootPaths =>
    extractGraphQLSelectionPath prev selectionMap rootPaths
  | .node (.str key) prev, selectionMap, rootPaths =>
    extractGraphQLSelectionPath prev selectionMap (applyMapper selectionMap rootPaths key :: rootPaths)

/-- A GraphQL selection list (the entries of a `selectionSet`), flattened so
that each entry carries its own tail.  `leaf` is a field node without a
`selectionSet`, `node` a field node with one (`sub` are its entries, possibly
empty), and `frag` any non-field entry such as a fragment spread. -/
inductive Sel where
  | nil
  | frag (rest : Sel)
  | leaf (name : String) (rest : Sel)
  | node (name : String) (sub : Sel) (rest : Sel)
deriving DecidableEq, Repr

/-- The `reduce` loop of `extractGraphQLSelections` (helper snapshot used by
the monolithic resolver): non-field entries leave the accumulator untouched,
a field without nested selections is marked `true`, and a field with nested
selections stores `{ include: { [mappedValue]: { select: data } } }` under
its own field name, where `data` recurses into the nested selections with the
field name appended to the parent keys. -/
def extractSelections (m : SelectionMap) : Sel → List String → JsObj → JsObj
  | .nil, _, prev => prev
  | .frag rest, parentFieldKeys, prev => extractSelections m rest parentFieldKeys prev
  | .leaf fieldName rest, parentFieldKeys, prev =>
    extractSelections m rest parentFieldKeys (setKey prev fieldName (.bool true))
  | .node fieldName sub rest, parentFieldKeys, prev =>
    let data := extractSelections m sub (parentFieldKeys ++ [fieldName]) []
    let mappedValue := applyMapper m parentFieldKeys fieldName
    extractSelections m rest parentFieldKeys
      (setKey prev fieldName
        (.obj [("include", .obj [(mappedValue, .obj [("select", .obj data)])])]))

/-- A GraphQL `FieldNode`: its name and its optional selection set. -/
structure FieldNode where
  name : String
  selectionSet : Option Sel
deriving DecidableEq, Repr

/-- Function `extractGraphQLSelections`: returns `{}` when the node has no selection
set, otherwise reduces over the selection-set entries starting from `{}`. -/
def extractGraphQLSelections (node : FieldNode) (m : SelectionMap)
    (parentFieldKeys : List String) : JsObj :=
  match node.selectionSet with
  | none => []
  | some sels => extractSelections m sels parentFieldKeys []

/-- The parts of a `GraphQLResolveInfo` the resolver base reads: the resolve
path, `parentType.name`, and `fieldNodes[0]`. -/
structure ResolveInfo where
  path : ResolvePath
  parentTypeName : String
  fieldNode : FieldNode
deriving DecidableEq, Repr

/-- The monolithic `DynamicResolverBase.getSelectionObject`:
`extractGraphQLSelections` on `info.fieldNodes[0]`. -/
def getSelectionObject (info : ResolveInfo) (selectionMap : SelectionMap) : JsVal :=
  .obj (extractGraphQLSelections info.fieldNode selectionMap [])

/-- Result of the monolithic `getSelectionPath`: the destructured segments
and the resolved Prisma accessor name (`source = this.prisma[to]`).  `root`
is never validated and may be absent. -/
structure SelectionPathResult where
  to_ : String
  root : Option String
  from_ : String
  selectionPath : List String
deriving DecidableEq, Repr

/-- Template-literal rendering of a possibly-`undefined` segment. -/
def segStr : Option String → String
  | none => "undefined"
  | some s => s

/-- The monolithic `DynamicResolverBase.getSelectionPath` from
`src/dynamic-resolvers.ts`: destructures the extracted path as
`[root, to, from = toCamelCase(info.parentType.name)]`, throws when `from`
or `to` is falsy, and throws when `to` is not a key of the Prisma client
(`prismaModels` is the key set of the injected client). -/
def getSelectionPath (prismaModels : List String) (info : ResolveInfo)
    (selectionMap : SelectionMap) : Except String SelectionPathResult :=
  let selectionPath := extractGraphQLSelectionPath info.path selectionMap []
  let root := selectionPath.get? 0
  let toSeg := selectionPath.get? 1
  let from_ := (selectionPath.get? 2).getD (toCamelCase info.parentTypeName)
  if from_.isEmpty then
    .error ("The navigation source could not be extracted in (" ++ segStr root ++ ")")
  else if falsyOptStr toSeg then
    .error ("The navigation target could not be extracted in (" ++ segStr root ++ "): \""
      ++ from_ ++ "\" -> ?")
  else
    let toName := toSeg.getD ""
    if prismaModels.contains toName then
      .ok { to_ := toName, root := root, from_ := from_, selectionPath := selectionPath }
    else
      .error ("Unrecognized Prisma model: \"" ++ toName
        ++ "\". Failed to build resolver for navigation: \"" ++ from_ ++ " -> " ++ toName ++ "\"")

/-- Which Prisma query method a lazy resolution calls. -/
inductive QueryOp where
  | findMany
  | findFirst
deriving DecidableEq, Repr

/-- One Prisma query issued by a resolver: the accessor it was called on and
its `{ select, where }` argument. -/
structure QuerySpec where
  op : QueryOp
  model : String
  select : JsVal
  whereClause : JsVal

/-- The `where` object built by the monolithic `resolve`:
`{ [reverseTableName]: { some: { [from]: { id: parent[primaryKeyName] } } } }`. -/
def mkWhereClause (reverseKey fromKey : String) (idVal : JsVal) : JsVal :=
  .obj [(reverseKey, .obj [("some", .obj [(fromKey, .obj [("id", idVal)])])])]

/-- The reverse-relation key used by the monolithic `resolve`:
`reverseTableName = sourceTableName` destructuring default. -/
def reverseKeyOf (navigationMap : INavigationMap) : String :=
  navigationMap.reverseTableName.getD navigationMap.sourceTableName

/-- Outcome of the monolithic `resolve`: data returned directly (eager path),
a single Prisma query issued (lazy path), or a thrown error. -/
inductive ResolveOutcome where
  | data (v : JsVal)
  | query (q : QuerySpec)
  | err (e : String)

/-- JavaScript `data.map((it) => it[targetTableName])` on the eager path; a non-array
turns the JavaScript call into a `TypeError`. -/
def mapByTableName (data : JsVal) (targetTableName : String) : ResolveOutcome :=
  match data with
  | .arr items => .data (.arr (items.map (fun it =>
      match it with
      | .obj o => getKey o targetTableName
      | _ => .jsUndefined)))
  | _ => .err "TypeError: data.map is not a function"

/-- The monolithic `DynamicResolverBase.resolve` from
`src/dynamic-resolvers.ts`: serves the property from the parent when it is
already loaded, and otherwise resolves the path, extracts the selection
object and issues a single `findMany` (relation contains a star) or
`findFirst` query filtered on the reverse relation by the parent's primary
key. -/
def resolve (prismaModels : List String) (parent : JsObj) (primaryKeyName : String)
    (info : ResolveInfo) (navigationMap : INavigationMap)
    (selectionMap : SelectionMap) : ResolveOutcome :=
  let isArray := navigationMap.relation.hasStar
  if hasKey parent navigationMap.sourceProperty then
    let data := getKey parent navigationMap.sourceProperty
    if isArray then mapByTableName data navigationMap.targetTableName
    else .data data
  else
    match getSelectionPath prismaModels info selectionMap with
    | .error e => .err e
    | .ok pathResult =>
      let select := getSelectionObject info selectionMap
      let whereClause := mkWhereClause (reverseKeyOf navigationMap) pathResult.from_
        (getKey parent primaryKeyName)
      if isArray then
        .query { op := .findMany, model := pathResult.to_, select := select,
                 whereClause := whereClause }
      else
        .query { op := .findFirst, model := pathResult.to_, select := select,
                 whereClause := whereClause }

/-- Method `DynamicResolver.fireOnResolvingEvent` from
`src/dynamic-resolver/make-dynamic-resolver.ts`.  The configured hook is
represented by the value it returns for this invocation; the result models
the `[shouldReturn, replaceValue]` pair (`replaceValue` is `undefined` when
resolving proceeds). -/
def fireOnResolvingEvent (onResolving : Option JsVal) : Bool × JsVal :=
  match onResolving with
  | some replaceValue =>
    if typeofObject replaceValue then (true, replaceValue) else (false, .jsUndefined)
  | none => (false, .jsUndefined)

/-- Method `DynamicResolver.fireOnResolvedEvent` from
`src/dynamic-resolver/make-dynamic-resolver.ts`: the hook receives the data
and the `fromDatabase` flag; a return value of JavaScript object type
replaces the data, anything else leaves the data in place. -/
def fireOnResolvedEvent (onResolved : Option (JsVal → Bool → JsVal)) (data : JsVal)
    (fromDatabase : Bool) : JsVal :=
  match onResolved with
  | some hook =>
    let replaceValue := hook data fromDatabase
    if typeofObject replaceValue then replaceValue else data
  | none => data

/-- The generated handler (`handlerMethodDescriptor.value`) from
`src/dynamic-resolver/make-dynamic-resolver.ts`.  `resolveResult` is what
`await this.resolve(...)` would produce together with the storage queries
that call would issue; the pair returned is the handler's result and the
queries actually issued. -/
def handlerValue (onResolving : Option JsVal) (onResolved : Option (JsVal → Bool → JsVal))
    (resolveResult : JsVal × List QuerySpec) : JsVal × List QuerySpec :=
  let fired := fireOnResolvingEvent onResolving
  if fired.1 then
    (fireOnResolvedEvent onResolved fired.2 false, [])
  else
    (fireOnResolvedEvent onResolved resolveResult.1 true, resolveResult.2)

/-- Interface `IRegisterDynamicResolverParams` from
`src/dynamic-resolver/dynamic-resolver-ops.ts` (hook configuration reduced to
presence, which is all the generation pass forwards). -/
structure IRegisterDynamicResolverParams where
  target : TypeRef
  moduleName : Option String := none
  tableName : Option String := none
  primaryKeyName : Option String := none
  keepNavigationMap : Option Bool := none
  hasOnResolving : Bool := false
  hasOnResolved : Bool := false
deriving DecidableEq, Repr

/-- State of the module-level `_resolverParams` array. -/
abbrev ResolverParamsState := Option (List IRegisterDynamicResolverParams)

/-- Function `registerDynamicResolver`: allocates the store if needed and appends. -/
def registerDynamicResolver (params : IRegisterDynamicResolverParams)
    (store : ResolverParamsState) : ResolverParamsState :=
  some (store.getD [] ++ [params])

/-- Function `getDynamicResolverParams` from
`src/dynamic-resolver/dynamic-resolver-ops.ts`: strict-equality filter of the
stored `moduleName` (possibly `undefined`) against the requested group name
string. -/
def getDynamicResolverParams (groupName : String) (store : ResolverParamsState) :
    List IRegisterDynamicResolverParams :=
  match store with
  | none => []
  | some l => l.filter (fun it => it.moduleName == some groupName)

/-- Function `removeDynamicResolverParamsOfGroup`: removes the group's entries,
returns `false` only when the store was unallocated, deallocates when
empty. -/
def removeDynamicResolverParamsOfGroup (groupName : String)
    (store : ResolverParamsState) : Bool × ResolverParamsState :=
  match store with
  | none => (false, none)
  | some l =>
    let survivors := l.filter (fun it => !(it.moduleName == some groupName))
    if survivors.isEmpty then (true, none) else (true, some survivors)

/-- The data `_makeDynamicResolver` closes its generated class over (the
class itself only adds NestJS wiring). -/
structure DynamicResolverClass where
  target : TypeRef
  primaryKeyName : String
  navigationMap : INavigationMap
  selectionMap : List (String × String)
  sourceProperty : String
  isArray : Bool
deriving DecidableEq, Repr

/-- Function `_makeDynamicResolver` from `src/dynamic-resolver/make-dynamic-resolver.ts`
reduced to the closure data listed above (`primaryKeyName = 'id'` default,
`isArray` from the relation's star). -/
def makeDynamicResolver (params : IRegisterDynamicResolverParams)
    (navigationMap : INavigationMap) (selectionMap : List (String × String)) :
    DynamicResolverClass :=
  { target := params.target
    primaryKeyName := params.primaryKeyName.getD "id"
    navigationMap := navigationMap
    selectionMap := selectionMap
    sourceProperty := navigationMap.sourceProperty
    isArray := navigationMap.relation.hasStar }

/-- String-valued dictionary assignment (for the generation pass's
`selectionMap`). -/
def setKeyStr : List (String × String) → String → String → List (String × String)
  | [], key, v => [(key, v)]
  | (k, w) :: rest, key, v =>
    if k == key then (k, v) :: rest else (k, w) :: setKeyStr rest key v

/-- Function `_generateMapsForType` from
`src/dynamic-resolver/make-dynamic-resolver.ts`: empty navigation list means
"skip"; otherwise the rename map starts from `{ sourceClass }` (the source
stores the class object itself under that key; its `name` stands in for it
here) and maps every link's source property to its source table name and,
when present, its target property to its target table name. -/
def generateMapsForType (sourceClass : TypeRef) (navs : NavState) :
    Option (List INavigationMap × List (String × String)) :=
  let navigationMaps := getNavigationMapsOf sourceClass navs
  if navigationMaps.isEmpty then none
  else
    let selectionMap := navigationMaps.foldl
      (fun prev current =>
        let prev := setKeyStr prev current.sourceProperty current.sourceTableName
        match current.targetProperty with
        | some tp => setKeyStr prev tp current.targetTableName
        | none => prev)
      [("sourceClass", sourceClass.name)]
    some (navigationMaps, selectionMap)

/-- Assignment `resolverClasses[target.name] = resolversOfTarget` — dictionary
assignment for the generation pass's result object. -/
def setKeyClasses : List (String × List DynamicResolverClass) → String →
    List DynamicResolverClass → List (String × List DynamicResolverClass)
  | [], key, v => [(key, v)]
  | (k, w) :: rest, key, v =>
    if k == key then (k, v) :: rest else (k, w) :: setKeyClasses rest key v

/-- Function `generateDynamicResolvers` from
`src/dynamic-resolver/make-dynamic-resolver.ts`: for every registration of
the group (in order), generate one resolver class per navigation link of its
target, record them under the target's name, drop the target's links unless
retention was requested, and finally (when `freeMemory`) drop the group's
registrations. -/
def generateDynamicResolvers (groupName : String) (freeMemory : Bool)
    (store : ResolverParamsState) (navs : NavState) :
    List (String × List DynamicResolverClass) × NavState × ResolverParamsState :=
  let resolverParams := getDynamicResolverParams groupName store
  let pass := resolverParams.foldl
    (fun (acc : List (String × List DynamicResolverClass) × NavState) params =>
      match generateMapsForType params.target acc.2 with
      | none => acc
      | some (navigationMaps, selectionMap) =>
        let resolversOfTarget := navigationMaps.map
          (fun navigationMap => makeDynamicResolver params navigationMap selectionMap)
        let classes := setKeyClasses acc.1 params.target.name resolversOfTarget
        let navs' :=
          if params.keepNavigationMap.getD false then acc.2
          else (removeNavigationMapsOf params.target acc.2).2
        (classes, navs'))
    ([], navs)
  let store' := if freeMemory then (removeDynamicResolverParamsOfGroup groupName store).2
    else store
  (pass.1, pass.2, store')

/-- Spec-side description (§4.5): the string keys of a resolve-path chain in
root-to-leaf order, numeric keys contributing no segment. -/
def pathStringKeys : ResolvePath → List String
  | .nil => []
  | .node (.num _) prev => pathStringKeys prev
  | .node (.str s) prev => pathStringKeys prev ++ [s]

/-- Spec-side description (§4.5): renaming one segment through a plain
string-to-string rename map, keys absent from the map kept unchanged. -/
def renameSegment (m : List (String × String)) (key : String) : String :=
  ((m.find? (fun kv => kv.1 == key)).map (fun kv => kv.2)).getD key

/-- A selection map all of whose values are strings (no mapper functions). -/
def strOnlyMap (m : List (String × String)) : SelectionMap :=
  m.map (fun kv => (kv.1, .str kv.2))

/-- Spec-side description (§4.1): the forward one-to-many link a
many-to-many declaration expands into — the declared source/target types,
property names and (camel-cased) table names, with cardinality 1:*. -/
def manyManyForwardLink (p : INavigationDefinitonParams) (prop : String) : INavigationMap :=
  { relation := .oneMany
    sourceTableName := toCamelCase (p.from_.tableName.getD p.from_.source.name)
    targetTableName := toCamelCase (p.to_.tableName.getD p.to_.target.name)
    target := p.to_.target
    source := p.from_.source
    targetProperty := some prop
    sourceProperty := p.from_.withProperty
    reverseTableName := none }

/-- Spec-side description (§4.1): the mirror of a link — source and target
types swapped, source and target property names swapped, source and target
table names swapped, cardinality 1:*. -/
def mirrorNavigationLink (nav : INavigationMap) : INavigationMap :=
  { relation := .oneMany
    source := nav.target
    target := nav.source
    sourceProperty := nav.targetProperty.getD ""
    targetProperty := some nav.sourceProperty
    sourceTableName := nav.targetTableName
    targetTableName := nav.sourceTableName
    reverseTableName := none }

/-- Spec-side description (§4.4): dropping the non-field entries of a
selection list. -/
def removeNonFieldEntries : Sel → Sel
  | .nil => .nil
  | .frag rest => removeNonFieldEntries rest
  | .leaf name rest => .leaf name (removeNonFieldEntries rest)
  | .node name sub rest => .node name sub (removeNonFieldEntries rest)

/-! ## Supporting lemmas -/

theorem lookupMapper_strOnlyMap (m : List (String × String)) (key : String) :
    lookupMapper (strOnlyMap m) key =
      (m.find? (fun kv => kv.1 == key)).map (fun kv => SelectionOutput.str kv.2) := by
  induction m with
  | nil => rfl
  | cons kv rest ih =>
    by_cases h : kv.1 == key
    · simp [lookupMapper, strOnlyMap, List.find?, h]
    · simp only [lookupMapper, strOnlyMap, List.map, List.find?] at *
      rw [Bool.not_eq_true] at h
      simp [h] at *
      exact ih

theorem applyMapper_strOnlyMap (m : List (String × String)) (parents : List String)
    (key : String) :
    applyMapper (strOnlyMap m) parents key = renameSegment m key := by
  unfold applyMapper renameSegment
  rw [lookupMapper_strOnlyMap]
  cases m.find? (fun kv => kv.1 == key) <;> rfl

theorem extractGraphQLSelectionPath_strOnlyMap (p : ResolvePath)
    (m : List (String × String)) (rootPaths : List String) :
    extractGraphQLSelectionPath p (strOnlyMap m) rootPaths =
      (pathStringKeys p).map (renameSegment m) ++ rootPaths := by
  induction p generalizing rootPaths with
  | nil => rfl
  | node key prev ih =>
    cases key with
    | num n => simpa [extractGraphQLSelectionPath, pathStringKeys] using ih rootPaths
    | str s =>
      simp [extractGraphQLSelectionPath, pathStringKeys, applyMapper_strOnlyMap,
        ih (renameSegment m s :: rootPaths)]

/-!
## C4 — path extraction
-/

/-- Claim C4: `extractGraphQLSelectionPath` returns the chain's string keys
in root-to-leaf order; numeric keys are skipped without contributing a
segment; each string key goes through the rename map — a string replaces the
key, a function receives the already-accumulated segments and the key — and
keys absent from the map are kept unchanged (so a map such as
`[(fieldX, col_x)]` rewrites only the `fieldX` segment). -/
theorem extractGraphQLSelectionPath_spec :
    (∀ (p : ResolvePath) (m : List (String × String)),
      extractGraphQLSelectionPath p (strOnlyMap m) [] =
        (pathStringKeys p).map (renameSegment m))
    ∧ (∀ (p : ResolvePath) (m : SelectionMap) (n : Nat) (rootPaths : List String),
      extractGraphQLSelectionPath (.node (.num n) p) m rootPaths =
        extractGraphQLSelectionPath p m rootPaths)
    ∧ (∀ (p : ResolvePath) (m : SelectionMap) (key : String) (rootPaths : List String),
      extractGraphQLSelectionPath (.node (.str key) p) m rootPaths =
        extractGraphQLSelectionPath p m (applyMapper m rootPaths key :: rootPaths)) := by
  refine ⟨fun p m => ?_, fun p m n rootPaths => rfl, fun p m key rootPaths => rfl⟩
  simpa using extractGraphQLSelectionPath_strOnlyMap p m []

theorem extractSelections_removeNonFieldEntries (m : SelectionMap) (sels : Sel)
    (parentFieldKeys : List String) (prev : JsObj) :
    extractSelections m sels parentFieldKeys prev =
      extractSelections m (removeNonFieldEntries sels) parentFieldKeys prev := by
  induction sels generalizing prev with
  | nil => rfl
  | frag rest ih => simpa [extractSelections, removeNonFieldEntries] using ih prev
  | leaf name rest ih =>
    simp [extractSelections, removeNonFieldEntries, ih]
  | node name sub rest ihSub ihRest =>
    simp [extractSelections, removeNonFieldEntries, ihRest]

/-!
## C5 — selection extraction
-/

/-- Claim C5: in `extractGraphQLSelections`, a requested field without nested
selections is stored as its key mapped to `true`; a field with nested
selections is stored under its original GraphQL field name, holding the
structure built by recursing into its sub-selections, with the rename map
deciding the inner relation key; and non-field selection entries (fragment
spreads) contribute nothing to the output. -/
theorem extractGraphQLSelections_spec :
    (∀ (name : String) (sels : Sel) (m : SelectionMap) (parentFieldKeys : List String),
      extractGraphQLSelections ⟨name, some sels⟩ m parentFieldKeys =
        extractGraphQLSelections ⟨name, some (removeNonFieldEntries sels)⟩ m parentFieldKeys)
    ∧ (∀ (m : SelectionMap) (fieldName : String) (rest : Sel) (parentFieldKeys : List String)
        (prev : JsObj),
      extractSelections m (.leaf fieldName rest) parentFieldKeys prev =
        extractSelections m rest parentFieldKeys (setKey prev fieldName (.bool true)))
    ∧ (∀ (m : SelectionMap) (fieldName : String) (sub rest : Sel)
        (parentFieldKeys : List String) (prev : JsObj),
      extractSelections m (.node fieldName sub rest) parentFieldKeys prev =
        extractSelections m rest parentFieldKeys
          (setKey prev fieldName
            (.obj [("include",
              .obj [(applyMapper m parentFieldKeys fieldName,
                .obj [("select",
                  .obj (extractSelections m sub (parentFieldKeys ++ [fieldName]) []))])])])))
    ∧ (∀ (name : String) (m : SelectionMap) (parentFieldKeys : List String),
      extractGraphQLSelections ⟨name, none⟩ m parentFieldKeys = []) := by
  refine ⟨fun name sels m parentFieldKeys => ?_,
    fun m fieldName rest parentFieldKeys prev => rfl,
    fun m fieldName sub rest parentFieldKeys prev => rfl,
    fun name m parentFieldKeys => rfl⟩
  simpa [extractGraphQLSelections] using
    extractSelections_removeNonFieldEntries m sels parentFieldKeys []

/-!
## C2 — many-to-many expansion
-/

/-- Claim C2 (counterexample): a `*:*` registration whose target-side
property name is supplied but empty throws and appends nothing — the
empty string is falsy, so the "exactly two links are appended" part of the
claim fails for it. -/
theorem registerNavigation_manyMany_emptyProp_refuted :
    registerNavigation
      { from_ := { source := ⟨0, "A"⟩, withProperty := "items" },
        to_ := { target := ⟨1, "B"⟩, withProperty := some "" },
        relation := .manyMany } none =
      (.error "[registerNavigation targetProperty] - Property is required when the relation is *:*",
        []) := rfl

/-- Claim C2 (amended): a `*:*` registration whose target-side property name
is supplied and non-empty appends exactly two links, both `1:*` — the
forward link keeping the declared source/target, property names and table
names, the second being its mirror — and afterwards the forward link is
retrievable via the source type and the mirror via the target type. -/
theorem registerNavigation_manyMany_expands
    (p : INavigationDefinitonParams) (navs : NavState) (prop : String)
    (h1 : p.relation = .manyMany) (h2 : p.to_.withProperty = some prop)
    (h3 : prop.isEmpty = false) :
    registerNavigation p navs =
      (.ok (), getNavigationMaps navs ++
        [manyManyForwardLink p prop, mirrorNavigationLink (manyManyForwardLink p prop)])
    ∧ manyManyForwardLink p prop ∈
        getNavigationMapsOf p.from_.source (some (registerNavigation p navs).2)
    ∧ mirrorNavigationLink (manyManyForwardLink p prop) ∈
        getNavigationMapsOf p.to_.target (some (registerNavigation p navs).2) := by
  have hmain : registerNavigation p navs =
      (.ok (), getNavigationMaps navs ++
        [manyManyForwardLink p prop, mirrorNavigationLink (manyManyForwardLink p prop)]) := by
    simp [registerNavigation, h1, h2, falsyOptStr, h3, getNavigationMaps,
      manyManyForwardLink, mirrorNavigationLink]
  refine ⟨hmain, ?_, ?_⟩
  · rw [hmain]
    simp [getNavigationMapsOf, List.mem_filter, manyManyForwardLink]
  · rw [hmain]
    simp [getNavigationMapsOf, List.mem_filter, mirrorNavigationLink, manyManyForwardLink]

/-- Witness for the amended C2 at a concrete registration. -/
theorem registerNavigation_manyMany_expands_witness :
    registerNavigation
      { from_ := { source := ⟨0, "A"⟩, withProperty := "items" },
        to_ := { target := ⟨1, "B"⟩, withProperty := some "owners" },
        relation := .manyMany } none =
      (.ok (), [manyManyForwardLink
          { from_ := { source := ⟨0, "A"⟩, withProperty := "items" },
            to_ := { target := ⟨1, "B"⟩, withProperty := some "owners" },
            relation := .manyMany } "owners",
        mirrorNavigationLink (manyManyForwardLink
          { from_ := { source := ⟨0, "A"⟩, withProperty := "items" },
            to_ := { target := ⟨1, "B"⟩, withProperty := some "owners" },
            relation := .manyMany } "owners")]) :=
  (registerNavigation_manyMany_expands
    { from_ := { source := ⟨0, "A"⟩, withProperty := "items" },
      to_ := { target := ⟨1, "B"⟩, withProperty := some "owners" },
      relation := .manyMany } none "owners" rfl rfl rfl).1

/-!
## C7 — missing target-side property
-/

/-- Claim C7: a `*:*` registration that omits the target-side property name
throws, and the set of registered links is unchanged (nothing is appended;
only the backing store may get freshly allocated, still holding no link). -/
theorem registerNavigation_manyMany_missingProp
    (p : INavigationDefinitonParams) (navs : NavState)
    (h1 : p.relation = .manyMany) (h2 : p.to_.withProperty = none) :
    (registerNavigation p navs).1 =
      .error "[registerNavigation targetProperty] - Property is required when the relation is *:*"
    ∧ (registerNavigation p navs).2 = getNavigationMaps navs := by
  constructor <;> simp [registerNavigation, h1, h2, falsyOptStr, getNavigationMaps]

/-- Witness for C7 at a concrete registration. -/
theorem registerNavigation_manyMany_missingProp_witness :
    (registerNavigation
      { from_ := { source := ⟨0, "A"⟩, withProperty := "items" },
        to_ := { target := ⟨1, "B"⟩ },
        relation := .manyMany } (some [])).2 = getNavigationMaps (some []) :=
  (registerNavigation_manyMany_missingProp
    { from_ := { source := ⟨0, "A"⟩, withProperty := "items" },
      to_ := { target := ⟨1, "B"⟩ },
      relation := .manyMany } (some []) rfl rfl).2

/-!
## C8 — removal of a type's links
-/

/-- Claim C8: `removeNavigationMapsOf` removes exactly the links whose source
is the given type, returns `true` precisely when the backing store was
allocated before the call (whether or not anything matched), and deallocates
the store once it is empty, so a second call after removing the registry's
only links returns `false`. -/
theorem removeNavigationMapsOf_spec (t : TypeRef) (navs : NavState) :
    (removeNavigationMapsOf t navs).1 = navs.isSome
    ∧ getNavigationMaps (removeNavigationMapsOf t navs).2 =
        (getNavigationMaps navs).filter (fun it => !(it.source == t))
    ∧ ((getNavigationMaps navs).all (fun it => it.source == t) = true →
        (removeNavigationMapsOf t (removeNavigationMapsOf t navs).2).1 = false) := by
  cases navs with
  | none => exact ⟨rfl, rfl, fun _ => rfl⟩
  | some l =>
    refine ⟨?_, ?_, ?_⟩
    · by_cases h : (l.filter (fun it => !(it.source == t))).isEmpty <;>
        simp [removeNavigationMapsOf, h]
    · by_cases h : (l.filter (fun it => !(it.source == t))).isEmpty
      · simp [removeNavigationMapsOf, h, getNavigationMaps]
        simpa [List.isEmpty_iff] using h
      · simp [removeNavigationMapsOf, h, getNavigationMaps]
    · intro hall
      have hempty : (l.filter (fun it => !(it.source == t))).isEmpty = true := by
        simp only [List.isEmpty_iff, List.filter_eq_nil_iff]
        intro a ha
        have := List.all_eq_true.mp hall a ha
        simp [this]
      simp [removeNavigationMapsOf, hempty]

/-- Witness for C8: removing the single registered link of a type, then
calling again, returns `false` the second time. -/
theorem removeNavigationMapsOf_spec_witness :
    (removeNavigationMapsOf ⟨0, "A"⟩
      (removeNavigationMapsOf ⟨0, "A"⟩
        (some [{ source := ⟨0, "A"⟩, target := ⟨1, "B"⟩, sourceTableName := "a",
                 sourceProperty := "items", targetTableName := "b",
                 relation := .oneMany }])).2).1 = false :=
  (removeNavigationMapsOf_spec ⟨0, "A"⟩
    (some [{ source := ⟨0, "A"⟩, target := ⟨1, "B"⟩, sourceTableName := "a",
             sourceProperty := "items", targetTableName := "b",
             relation := .oneMany }])).2.2 (by decide)

/-!
## C9 — stored links never carry a reverse table name
-/

/-- Claim C9: every link `registerNavigation` appends (whatever the caller
put into `from.reverseTableName`) has no reverse table name, and for a link
without one the reverse-relation key the lazy query's `where` clause is built
from (`reverseKeyOf`, the `reverseTableName = sourceTableName` default in
`resolve`) is exactly the link's source table name. -/
theorem registerNavigation_dropsReverseTableName
    (p : INavigationDefinitonParams) (navs : NavState) (nav : INavigationMap)
    (h : nav ∈ (registerNavigation p navs).2) :
    nav ∈ getNavigationMaps navs ∨
      (nav.reverseTableName = none ∧ reverseKeyOf nav = nav.sourceTableName) := by
  by_cases hr : p.relation = .manyMany
  · by_cases hf : falsyOptStr p.to_.withProperty
    · simp [registerNavigation, hr, hf] at h
      exact Or.inl h
    · simp [registerNavigation, hr, hf] at h
      rcases h with h | h | h
      · exact Or.inl h
      · subst h
        exact Or.inr ⟨rfl, rfl⟩
      · subst h
        exact Or.inr ⟨rfl, rfl⟩
  · simp [registerNavigation, hr] at h
    rcases h with h | h
    · exact Or.inl h
    · subst h
      exact Or.inr ⟨rfl, rfl⟩

/-- Witness for C9: the link appended by a concrete `1:*` registration that
does supply `from.reverseTableName` still stores none, and its where-clause
key is its source table name. -/
theorem registerNavigation_dropsReverseTableName_witness :
    (⟨⟨0, "User"⟩, ⟨1, "UserRole"⟩, "user", none, "roles", "userRole", none, .oneMany⟩
        ∈ getNavigationMaps none) ∨
      ((INavigationMap.reverseTableName
          ⟨⟨0, "User"⟩, ⟨1, "UserRole"⟩, "user", none, "roles", "userRole", none, .oneMany⟩
            = none)
        ∧ reverseKeyOf
            ⟨⟨0, "User"⟩, ⟨1, "UserRole"⟩, "user", none, "roles", "userRole", none, .oneMany⟩
            = "user") :=
  registerNavigation_dropsReverseTableName
    { from_ := ⟨⟨0, "User"⟩, none, "roles", some "users"⟩,
      to_ := { target := ⟨1, "UserRole"⟩ },
      relation := .oneMany } none _ (by decide)

/-!
## C1 — the lazy query issued by the monolithic `resolve`
-/

/-- Claim C1: when the parent does not carry the navigated property and path
resolution succeeds, `resolve` issues exactly one query — `findMany` for a
starred relation, `findFirst` otherwise — on the accessor the path resolved,
with the select object extracted from the request's selection tree and the
`where` clause keyed by the link's reverse table name (defaulting to its
source table name), `some`, the path's `from` segment, and
`id = parent[primaryKeyName]`. -/
theorem resolve_lazy_issuesQuery
    (prismaModels : List String) (parent : JsObj) (primaryKeyName : String)
    (info : ResolveInfo) (navigationMap : INavigationMap) (selectionMap : SelectionMap)
    (pathResult : SelectionPathResult)
    (h1 : hasKey parent navigationMap.sourceProperty = false)
    (h2 : getSelectionPath prismaModels info selectionMap = .ok pathResult) :
    resolve prismaModels parent primaryKeyName info navigationMap selectionMap =
      .query { op := if navigationMap.relation.hasStar then .findMany else .findFirst,
               model := pathResult.to_,
               select := getSelectionObject info selectionMap,
               whereClause := mkWhereClause
                 (navigationMap.reverseTableName.getD navigationMap.sourceTableName)
                 pathResult.from_ (getKey parent primaryKeyName) } := by
  cases hrel : navigationMap.relation.hasStar <;>
    simp [resolve, h1, h2, hrel, reverseKeyOf]

/-- Witness for C1: the `User --roles--> UserRole` scenario with the request
`allUsers { id roles { id name } }` issues one `findMany` selecting
`id, name` and filtering on the parent's id. -/
theorem resolve_lazy_issuesQuery_witness :
    resolve ["roles"] [("id", .str "u1")] "id"
      ⟨.node (.str "roles") (.node (.num 0) (.node (.str "allUsers") .nil)), "User",
        ⟨"roles", some (.leaf "id" (.leaf "name" .nil))⟩⟩
      ⟨⟨0, "User"⟩, ⟨1, "UserRole"⟩, "user", none, "roles", "userRole", none, .oneMany⟩ [] =
      .query { op := .findMany, model := "roles",
               select := .obj [("id", .bool true), ("name", .bool true)],
               whereClause := .obj [("user",
                 .obj [("some", .obj [("user", .obj [("id", .str "u1")])])])] } :=
  resolve_lazy_issuesQuery ["roles"] [("id", .str "u1")] "id"
    ⟨.node (.str "roles") (.node (.num 0) (.node (.str "allUsers") .nil)), "User",
      ⟨"roles", some (.leaf "id" (.leaf "name" .nil))⟩⟩
    ⟨⟨0, "User"⟩, ⟨1, "UserRole"⟩, "user", none, "roles", "userRole", none, .oneMany⟩ []
    ⟨"roles", some "allUsers", "user", ["allUsers", "roles"]⟩ rfl rfl

/-!
## C3 — pre-resolve hook short-circuit
-/

/-- Claim C3 (counterexample): a pre-resolve hook returning an object
short-circuits storage, but when the post-resolve hook returns `null` the
handler's final result is `null` — not the pre-resolve hook's object as the
claim states — because `typeof null === 'object'` passes the replacement
check. -/
theorem handler_postHookNull_refuted :
    handlerValue (some (.obj [("a", .bool true)])) (some (fun _ _ => .null)) (.jsUndefined, []) =
      (.null, [])
    ∧ JsVal.null ≠ .obj [("a", .bool true)] :=
  ⟨rfl, fun h => JsVal.noConfusion h⟩

/-- Claim C3 (amended): when the configured pre-resolve hook returns a
non-null object, no storage query is issued and that object is passed to the
post-resolve hook with the sourced-from-storage flag `false`; the final
result is the post-resolve hook's return value whenever that value is of
JavaScript object type (including `null`), and the pre-resolve hook's object
otherwise. -/
theorem handler_shortCircuit_spec (pre : JsVal) (post : Option (JsVal → Bool → JsVal))
    (resolveResult : JsVal × List QuerySpec)
    (h1 : typeofObject pre = true) (_h2 : pre ≠ .null) :
    handlerValue (some pre) post resolveResult =
      ((match post with
        | some hook => if typeofObject (hook pre false) then hook pre false else pre
        | none => pre), []) := by
  cases post <;> simp [handlerValue, fireOnResolvingEvent, fireOnResolvedEvent, h1]

/-- Witness for the amended C3: a pre-resolve hook returning `{}` with a
post-resolve hook returning a non-object leaves the hook's object in place
and suppresses the query the resolver would have issued. -/
theorem handler_shortCircuit_spec_witness :
    handlerValue (some (.obj [])) (some (fun _ _ => .str "ignored"))
      (.str "db", [⟨.findMany, "m", .null, .null⟩]) = (.obj [], []) :=
  handler_shortCircuit_spec (.obj []) (some (fun _ _ => .str "ignored"))
    (.str "db", [⟨.findMany, "m", .null, .null⟩]) rfl (fun h => JsVal.noConfusion h)

/-!
## C6 — under-resolved path
-/

/-- Claim C6 (counterexample): a lazy resolution whose extracted selection
path has exactly two segments — fewer than the three the claim requires —
does not throw: `getSelectionPath` silently defaults the missing third
segment from `toCamelCase(info.parentType.name)` and `resolve` proceeds to
issue the storage query. -/
theorem resolve_twoSegmentPath_refuted :
    (extractGraphQLSelectionPath
      (.node (.str "roles") (.node (.num 0) (.node (.str "allUsers") .nil))) [] []).length = 2
    ∧ hasKey [("id", .str "u1")] "roles" = false
    ∧ resolve ["roles"] [("id", .str "u1")] "id"
        ⟨.node (.str "roles") (.node (.num 0) (.node (.str "allUsers") .nil)), "User",
          ⟨"roles", some (.leaf "id" (.leaf "name" .nil))⟩⟩
        ⟨⟨0, "User"⟩, ⟨1, "UserRole"⟩, "user", none, "roles", "userRole", none, .oneMany⟩ [] =
      .query { op := .findMany, model := "roles",
               select := .obj [("id", .bool true), ("name", .bool true)],
               whereClause := .obj [("user",
                 .obj [("some", .obj [("user", .obj [("id", .str "u1")])])])] } :=
  ⟨rfl, rfl, rfl⟩

/-- Claim C6 (amended): on a lazy resolution (parent without the navigated
property), an extracted selection path of fewer than two segments makes the
handler throw — the navigation-target error naming the root segment (the
navigation-source error instead when the parent type's camel-cased name is
empty) — and no storage query is issued; the missing-segment check fires
below two segments, not three, because the third segment defaults to the
parent type's camel-cased name. -/
theorem resolve_shortPath_throws
    (prismaModels : List String) (parent : JsObj) (primaryKeyName : String)
    (info : ResolveInfo) (navigationMap : INavigationMap) (selectionMap : SelectionMap)
    (h1 : hasKey parent navigationMap.sourceProperty = false)
    (h2 : (extractGraphQLSelectionPath info.path selectionMap []).length < 2) :
    resolve prismaModels parent primaryKeyName info navigationMap selectionMap =
      .err (if (toCamelCase info.parentTypeName).isEmpty
        then "The navigation source could not be extracted in ("
          ++ segStr ((extractGraphQLSelectionPath info.path selectionMap []).get? 0) ++ ")"
        else "The navigation target could not be extracted in ("
          ++ segStr ((extractGraphQLSelectionPath info.path selectionMap []).get? 0)
          ++ "): \"" ++ toCamelCase info.parentTypeName ++ "\" -> ?") := by
  have hget1 : (extractGraphQLSelectionPath info.path selectionMap [])[1]? = none := by
    rw [List.getElem?_eq_none_iff]
    omega
  have hget2 : (extractGraphQLSelectionPath info.path selectionMap [])[2]? = none := by
    rw [List.getElem?_eq_none_iff]
    omega
  by_cases hemp : (toCamelCase info.parentTypeName).isEmpty <;>
    simp [resolve, h1, getSelectionPath, hget1, hget2, hemp, falsyOptStr]

/-- Witness for the amended C6 at a one-segment path. -/
theorem resolve_shortPath_throws_witness :
    resolve [] [("id", .str "u1")] "id"
      ⟨.node (.str "allUsers") .nil, "User", ⟨"allUsers", none⟩⟩
      ⟨⟨0, "User"⟩, ⟨1, "UserRole"⟩, "user", none, "roles", "userRole", none, .oneMany⟩ [] =
      .err "The navigation target could not be extracted in (allUsers): \"user\" -> ?" :=
  resolve_shortPath_throws [] [("id", .str "u1")] "id"
    ⟨.node (.str "allUsers") .nil, "User", ⟨"allUsers", none⟩⟩
    ⟨⟨0, "User"⟩, ⟨1, "UserRole"⟩, "user", none, "roles", "userRole", none, .oneMany⟩ []
    rfl (by decide)

/-!
## C10 — registrations without a module name are never generated
-/

/-- Claim C10: a resolver registration without a module name is excluded from
`getDynamicResolverParams` for every requested group name (the stored
`undefined` never strict-equals a string, `'_global'` included), so
`generateDynamicResolvers` produces the same resolver classes with or
without such a registration in the store. -/
theorem ungroupedRegistration_neverGenerated
    (groupName : String) (a b : List IRegisterDynamicResolverParams)
    (r : IRegisterDynamicResolverParams) (navs : NavState) (freeMemory : Bool)
    (h : r.moduleName = none) :
    r ∉ getDynamicResolverParams groupName (some (a ++ r :: b))
    ∧ getDynamicResolverParams groupName (some (a ++ r :: b)) =
        getDynamicResolverParams groupName (some (a ++ b))
    ∧ (generateDynamicResolvers groupName freeMemory (some (a ++ r :: b)) navs).1 =
        (generateDynamicResolvers groupName freeMemory (some (a ++ b)) navs).1 := by
  have hpred : (r.moduleName == some groupName) = false := by
    simp [h]
  have heq : getDynamicResolverParams groupName (some (a ++ r :: b)) =
      getDynamicResolverParams groupName (some (a ++ b)) := by
    simp [getDynamicResolverParams, List.filter_append, List.filter_cons, hpred]
  refine ⟨?_, heq, ?_⟩
  · intro hmem
    have := (List.mem_filter.mp hmem).2
    rw [hpred] at this
    exact Bool.false_ne_true this
  · simp [generateDynamicResolvers, hpred, List.filter_append, List.filter_cons,
      getDynamicResolverParams]

/-- Witness for C10: an ungrouped registration is not returned for the
default `'_global'` group. -/
theorem ungroupedRegistration_neverGenerated_witness :
    ({ target := ⟨0, "User"⟩ } : IRegisterDynamicResolverParams) ∉
      getDynamicResolverParams "_global"
        (some ([] ++ ({ target := ⟨0, "User"⟩ } : IRegisterDynamicResolverParams) :: [])) :=
  (ungroupedRegistration_neverGenerated "_global" [] [] { target := ⟨0, "User"⟩ }
    none true rfl).1

end DynRes
